import Mathlib

/-!
Shallow embedding of the WeFriend social backend (Firebase Realtime Database
client code) and verification of its consistency properties.

The store is modelled path-for-path:
  `users/{id}`                 an association list of profiles (object key order matters
                               for the username scan in sendFriendRequest);
  `usernames/{name}`           a map from claimed username to user id;
  `friends/{id}`               adjacency: the set of keys under `friends/{id}/{otherId}`;
  `friendRequests/{to}`        the set of keys under `friendRequests/{to}/{from}`;
  `notifications/{id}`         a push-ordered list;
  `messages/{chatId}`          a push-ordered message log (push keys are modelled by a
                               monotonically increasing counter);
  `userChats/{id}/{chatId}`    a JSON node whose individual fields may be absent,
                               modelled as a record of Options; `update` merges fields;
  `posts/{id}`                 post node; its `comments` child is kept in a separate
                               map because `addComment` writes to
                               `posts/{id}/comments` independently of the post node.

Every mutating operation takes the authenticated caller as an explicit
argument (the JS reads it from ambient auth state and throws when absent).
A mutating operation returns the final store state together with an optional
error string: JS exceptions abort the remaining writes but keep the writes
already performed, so the state component always reflects exactly the writes
that happened before the throw.
-/

namespace WeFriend

abbrev UserId := String

/-- Profile fields stored at `users/{id}` that the verified operations read. -/
structure Profile where
  displayName : String
  username : Option String
  deriving DecidableEq

/-- A notification pushed onto `notifications/{ownerId}` by addNotification. -/
structure Notif where
  ntype : String
  nfrom : UserId
  message : String
  timestamp : Nat
  deriving DecidableEq

/-- Point update of a total map, modelling a write to one store path. -/
def setFun {α β : Type} [DecidableEq α] (f : α → β) (a : α) (b : β) : α → β :=
  fun x => if x = a then b else f x

/-- Creating a key under a store node: `set` on `node/{x}` adds the key if absent. -/
def keyInsert (l : List UserId) (x : UserId) : List UserId :=
  if x ∈ l then l else l ++ [x]

/-- Removing a key under a store node: `remove` on `node/{x}` deletes the key. -/
def keyRemove (l : List UserId) (x : UserId) : List UserId :=
  l.filter (fun y => y ≠ x)

namespace Friends

/-- State touched by friends.js: profiles, username index, friend adjacency,
pending requests keyed by receiver, notification queues, and the wall clock. -/
structure DB where
  users : List (UserId × Profile)
  usernames : String → Option UserId
  friends : UserId → List UserId
  requests : UserId → List UserId
  notifs : UserId → List Notif
  now : Nat

/-- getUserProfile: read `users/{uid}`. -/
def getUserProfile (db : DB) (uid : UserId) : Option Profile :=
  db.users.lookup uid

/-- getUserByUsername: index lookup at `usernames/{name}` followed by a profile read. -/
def getUserByUsername (db : DB) (name : String) : Option Profile :=
  match db.usernames name with
  | none => none
  | some uid => getUserProfile db uid

/-- addNotification: push onto `notifications/{userId}`. -/
def addNotification (db : DB) (userId : UserId) (n : Notif) : DB :=
  { db with notifs := setFun db.notifs userId (db.notifs userId ++ [n]) }

/-- areFriends: existence of the key `friends/{userId1}/{userId2}`. -/
def areFriends (db : DB) (userId1 userId2 : UserId) : Bool :=
  (db.friends userId1).contains userId2

/-- sendFriendRequest, faithful to the check order in friends.js:
username-index resolution, a linear scan of `users` for the username,
self check, already-friends check, duplicate-request check,
reciprocal-request check, then the request write and the notification.
The profile read for the notification text happens after the request write,
so a missing caller profile leaves the request in place (TypeError path). -/
def sendFriendRequest (db : DB) (caller : UserId) (targetUsername : String) :
    DB × Option String :=
  match getUserByUsername db targetUsername with
  | none => (db, some "User not found")
  | some _ =>
    match (db.users.find? (fun up => up.2.username = some targetUsername)).map Prod.fst with
    | none => (db, some "User not found")
    | some targetUid =>
      if targetUid = caller then
        (db, some "Cannot send friend request to yourself")
      else if (db.friends caller).contains targetUid then
        (db, some "Already friends with this user")
      else if (db.requests targetUid).contains caller then
        (db, some "Friend request already sent")
      else if (db.requests caller).contains targetUid then
        (db, some "This user has already sent you a friend request")
      else
        let db1 : DB :=
          { db with requests := setFun db.requests targetUid (keyInsert (db.requests targetUid) caller) }
        match getUserProfile db1 caller with
        | none => (db1, some "TypeError: cannot read displayName of null")
        | some p =>
          (addNotification db1 targetUid
            { ntype := "friend_request", nfrom := caller,
              message := p.displayName ++ " sent you a friend request",
              timestamp := db1.now }, none)

/-- acceptFriendRequest, faithful to friends.js: the pending request is removed
without checking that it exists, both mirrored edges are written, and a
notification is pushed to the requester.  The profile read for the
notification text happens after the edge writes. -/
def acceptFriendRequest (db : DB) (owner fromUserId : UserId) : DB × Option String :=
  let db1 : DB :=
    { db with requests := setFun db.requests owner (keyRemove (db.requests owner) fromUserId) }
  let db2 : DB :=
    { db1 with friends := setFun db1.friends owner (keyInsert (db1.friends owner) fromUserId) }
  let db3 : DB :=
    { db2 with friends := setFun db2.friends fromUserId (keyInsert (db2.friends fromUserId) owner) }
  match getUserProfile db3 owner with
  | none => (db3, some "TypeError: cannot read displayName of null")
  | some p =>
    (addNotification db3 fromUserId
      { ntype := "friend_request_accepted", nfrom := owner,
        message := p.displayName ++ " accepted your friend request",
        timestamp := db3.now }, none)

/-- removeFriend: delete both mirrored edge keys; never throws. -/
def removeFriend (db : DB) (caller friendUserId : UserId) : DB :=
  let db1 : DB :=
    { db with friends := setFun db.friends caller (keyRemove (db.friends caller) friendUserId) }
  { db1 with friends := setFun db1.friends friendUserId (keyRemove (db1.friends friendUserId) caller) }

/-- getFriendsList: keys under `friends/{caller}` whose profile exists
(entries without a readable profile are skipped). -/
def getFriendsList (db : DB) (caller : UserId) : List UserId :=
  (db.friends caller).filter (fun u => (getUserProfile db u).isSome)

/-- getFriendRequests: keys under `friendRequests/{caller}` (request senders)
whose profile exists. -/
def getFriendRequests (db : DB) (caller : UserId) : List UserId :=
  (db.requests caller).filter (fun u => (getUserProfile db u).isSome)

/-- getAllUsers: every key of the `users` node. -/
def getAllUsers (db : DB) : List UserId :=
  db.users.map Prod.fst

/-- getFriendSuggestions: all users minus self, minus current friends, minus
senders of pending incoming requests, truncated to `limit`. -/
def getFriendSuggestions (db : DB) (caller : UserId) (limit : Nat) : List UserId :=
  let friendIds := getFriendsList db caller
  let pendingRequestIds := getFriendRequests db caller
  ((getAllUsers db).filter (fun u =>
    u ≠ caller && !friendIds.contains u && !pendingRequestIds.contains u)).take limit

/-- The username index at `usernames/{name}` agrees with the profile data: a
profile claiming a username is indexed under it, and every index entry points
at a profile claiming that name (the store's uniqueness discipline for
usernames). -/
def UsernameConsistent (db : DB) : Prop :=
  (∀ u p n, (u, p) ∈ db.users → p.username = some n → db.usernames n = some u) ∧
  (∀ n u, db.usernames n = some u → ∃ p, (u, p) ∈ db.users ∧ p.username = some n)

/-- The mirrored-edge invariant: an edge key `friends/a/b` exists iff `friends/b/a` does. -/
def Mirrored (db : DB) : Prop :=
  ∀ a b : UserId, a ∈ db.friends b ↔ b ∈ db.friends a

end Friends

namespace Chat

abbrev ChatId := String

/-- A message node under `messages/{chatId}/{msgId}`.  `key` is the push key,
modelled as a Nat drawn from a monotonically increasing counter. -/
structure Msg where
  key : Nat
  senderId : UserId
  recipientId : UserId
  text : String
  ts : Nat
  read : Bool
  deriving DecidableEq

/-- The `userChats/{id}/{chatId}` node; each field may be absent, and
`update` merges fields into the node. -/
structure UCSummary where
  lastMessage : Option String
  lastMessageTime : Option Nat
  otherUserId : Option UserId
  unreadCount : Option Nat
  deriving DecidableEq

/-- The `chats/{chatId}` metadata node, rewritten wholesale by sendMessage. -/
structure ChatMeta where
  participants : List UserId
  lastMessageText : String
  lastMessageSender : UserId
  lastMessageTs : Nat
  updatedAt : Nat
  deriving DecidableEq

/-- State touched by the chat module. -/
@[ext]
structure DB where
  friends : UserId → List UserId
  users : UserId → Option Profile
  messages : ChatId → List Msg
  chats : ChatId → Option ChatMeta
  userChats : UserId → ChatId → Option UCSummary
  notifs : UserId → List Notif
  nextMsgId : Nat
  now : Nat

/-- generateChatId: order-independent thread key for two participants.  The JS
string comparison is lexicographic on code units, modelled as the
lexicographic order on the underlying character lists. -/
def generateChatId (userId1 userId2 : UserId) : ChatId :=
  if userId1.data < userId2.data then userId1 ++ "_" ++ userId2 else userId2 ++ "_" ++ userId1

/-- areFriends as imported from friends.js: key `friends/{a}/{b}` exists. -/
def areFriends (db : DB) (userId1 userId2 : UserId) : Bool :=
  (db.friends userId1).contains userId2

/-- Point update of the two-level `userChats` map. -/
def setUC (f : UserId → ChatId → Option UCSummary) (u : UserId) (c : ChatId)
    (v : Option UCSummary) : UserId → ChatId → Option UCSummary :=
  fun x y => if x = u ∧ y = c then v else f x y

/-- The sender-side `update` in sendMessage: merges last-message fields and
leaves any existing unreadCount untouched. -/
def mergeSenderUC (old : Option UCSummary) (t : String) (time : Nat) (other : UserId) :
    Option UCSummary :=
  some { lastMessage := some t, lastMessageTime := some time, otherUserId := some other,
         unreadCount := match old with | none => none | some s => s.unreadCount }

/-- The recipient-side `update` in sendMessage: merges last-message fields and
overwrites unreadCount. -/
def mergeRecipientUC (t : String) (time : Nat) (other : UserId) (n : Nat) :
    Option UCSummary :=
  some { lastMessage := some t, lastMessageTime := some time, otherUserId := some other,
         unreadCount := some n }

/-- The reader-side `update` in markMessagesAsRead: merges `unreadCount := 0`. -/
def mergeReadUC (old : Option UCSummary) : Option UCSummary :=
  match old with
  | none => some { lastMessage := none, lastMessageTime := none, otherUserId := none,
                   unreadCount := some 0 }
  | some s => some { s with unreadCount := some 0 }

/-- getUnreadCount: `snapshot.val().unreadCount || 0` with a missing node read as 0. -/
def getUnreadCount (db : DB) (userId : UserId) (chatId : ChatId) : Nat :=
  match db.userChats userId chatId with
  | none => 0
  | some s => s.unreadCount.getD 0

/-- addNotification for the chat module. -/
def addNotification (db : DB) (userId : UserId) (n : Notif) : DB :=
  { db with notifs := setFun db.notifs userId (db.notifs userId ++ [n]) }

/-- sendMessage, faithful to the write order in the chat module: friendship
check, message push, chat-metadata set, sender-mirror merge, recipient-mirror
merge with unread increment (the unread read happens just before that merge),
then the notification.  There is no validation of the message text.  The
profile read for the notification text happens after all mirror writes. -/
def sendMessage (db : DB) (caller recipientId : UserId) (messageText : String) :
    DB × Option String :=
  if areFriends db caller recipientId then
    let chatId := generateChatId caller recipientId
    let msg : Msg :=
      { key := db.nextMsgId, senderId := caller, recipientId := recipientId,
        text := messageText, ts := db.now, read := false }
    let db1 : DB :=
      { db with messages := setFun db.messages chatId (db.messages chatId ++ [msg]),
                nextMsgId := db.nextMsgId + 1 }
    let db2 : DB :=
      { db1 with chats := setFun db1.chats chatId (some { participants := [caller, recipientId], lastMessageText := messageText, lastMessageSender := caller, lastMessageTs := db.now, updatedAt := db.now }) }
    let db3 : DB :=
      { db2 with userChats := setUC db2.userChats caller chatId (mergeSenderUC (db2.userChats caller chatId) messageText db.now recipientId) }
    let prev := getUnreadCount db3 recipientId chatId
    let db4 : DB :=
      { db3 with userChats := setUC db3.userChats recipientId chatId (mergeRecipientUC messageText db.now caller (prev + 1)) }
    match db4.users caller with
    | none => (db4, some "TypeError: cannot read displayName of null")
    | some prof =>
      (addNotification db4 recipientId
        { ntype := "new_message", nfrom := caller,
          message := prof.displayName ++ " sent you a message",
          timestamp := db4.now }, none)
  else
    (db, some "Can only send messages to friends")

/-- markMessagesAsRead: merge `unreadCount := 0` into the reader's mirror, then
flip the read flag on every message in the thread addressed to the reader that
is still unread.  (The JS skips the second write when no message matches; that
is observationally the identity, modelled by the unconditional map.)  The
function never throws. -/
def markMessagesAsRead (db : DB) (caller otherUserId : UserId) : DB :=
  let chatId := generateChatId caller otherUserId
  let db1 : DB :=
    { db with userChats := setUC db.userChats caller chatId (mergeReadUC (db.userChats caller chatId)) }
  { db1 with messages := setFun db1.messages chatId ((db1.messages chatId).map (fun m => if m.recipientId = caller ∧ m.read = false then { m with read := true } else m)) }

/-- limitToLast: the last `n` entries of the log in key order. -/
def takeLast (l : List Msg) (n : Nat) : List Msg :=
  l.drop (l.length - n)

/-- Stable insertion of a message into a timestamp-sorted list: the new element
goes before the first strictly-later element and after earlier-or-equal ones. -/
def insTs (x : Msg) : List Msg → List Msg
  | [] => [x]
  | y :: ys => if x.ts ≤ y.ts then x :: y :: ys else y :: insTs x ys

/-- The stable sort by timestamp performed by `messagesList.sort` (JS array
sort with a numeric comparator is stable). -/
def sortByTs : List Msg → List Msg
  | [] => []
  | x :: xs => insTs x (sortByTs xs)

/-- The order the spec ascribes to message lists: creation time ascending with
ties broken by the write-time sequence number (the push key). -/
def lexLT (a b : Msg) : Prop :=
  a.ts < b.ts ∨ (a.ts = b.ts ∧ a.key < b.key)

/-- getChatMessages: read the last `lim` messages of the thread and sort them
by timestamp. -/
def getChatMessages (db : DB) (caller otherUserId : UserId) (lim : Nat) : List Msg :=
  sortByTs (takeLast (db.messages (generateChatId caller otherUserId)) lim)

/-- The snapshot delivered to the listenToChatMessages callback: same query and
same sort as getChatMessages. -/
def listenToChatMessagesSnapshot (db : DB) (caller otherUserId : UserId) (lim : Nat) :
    List Msg :=
  sortByTs (takeLast (db.messages (generateChatId caller otherUserId)) lim)

end Chat

namespace Feed

/-- A comment node under `posts/{postId}/comments/{commentId}`. -/
structure Comment where
  authorId : UserId
  authorName : String
  text : String
  deriving DecidableEq

/-- The post node at `posts/{postId}` minus its `comments` child (which the
code addresses through its own path); counters are JS numbers that may also be
absent, read back through `|| 0`. -/
structure Post where
  authorId : UserId
  authorName : String
  content : String
  likes : List UserId
  likesCount : Option Int
  commentsCount : Option Int
  deriving DecidableEq

/-- State touched by the feed module.  Post ids and comment push keys are
drawn from the shared `nextId` counter. -/
structure DB where
  users : UserId → Option Profile
  posts : Nat → Option Post
  comments : Nat → List (Nat × Comment)
  notifs : UserId → List Notif
  nextId : Nat
  now : Nat

/-- addNotification for the feed module. -/
def addNotification (db : DB) (userId : UserId) (n : Notif) : DB :=
  { db with notifs := setFun db.notifs userId (db.notifs userId ++ [n]) }

/-- createPost: rejects a post with neither trimmed content nor an image, then
writes the whole post node (resetting any stray `comments` child) and indexes
it under the author.  The image upload is abstracted to a presence flag. -/
def createPost (db : DB) (caller : UserId) (content : String) (hasImage : Bool) :
    DB × Option String :=
  if content.trim.isEmpty && !hasImage then
    (db, some "Post must have content or an image")
  else
    match db.users caller with
    | none => (db, some "TypeError: cannot read displayName of null")
    | some prof =>
      let post : Post :=
        { authorId := caller, authorName := prof.displayName, content := content.trim,
          likes := [], likesCount := some 0, commentsCount := some 0 }
      ({ db with posts := setFun db.posts db.nextId (some post),
                 comments := setFun db.comments db.nextId [],
                 nextId := db.nextId + 1 }, none)

/-- togglePostLike: flip the caller's membership in the post's like set and
adjust `likesCount` by one in the same `update` call; notify the author only on
the transition to liked and only when the liker is not the author. -/
def togglePostLike (db : DB) (caller : UserId) (postId : Nat) : DB × Option String :=
  match db.posts postId with
  | none => (db, some "Post not found")
  | some post =>
    if post.likes.contains caller then
      ({ db with posts := setFun db.posts postId (some { post with likes := post.likes.filter (fun u => u ≠ caller), likesCount := some (post.likesCount.getD 0 - 1) }) }, none)
    else
      let db1 : DB :=
        { db with posts := setFun db.posts postId (some { post with likes := post.likes ++ [caller], likesCount := some (post.likesCount.getD 0 + 1) }) }
      if post.authorId ≠ caller then
        match db1.users caller with
        | none => (db1, some "TypeError: cannot read displayName of null")
        | some prof =>
          (addNotification db1 post.authorId
            { ntype := "post_like", nfrom := caller,
              message := prof.displayName ++ " liked your post",
              timestamp := db1.now }, none)
      else
        (db1, none)

/-- addComment: reject a blank comment; read the caller profile (throws before
any write when it is missing); push the comment under
`posts/{postId}/comments`; then read the post node to bump `commentsCount`
(throws after the comment write when the post node is missing) and notify the
author unless commenting on one's own post. -/
def addComment (db : DB) (caller : UserId) (postId : Nat) (commentText : String) :
    DB × Option String :=
  if commentText.trim.isEmpty then
    (db, some "Comment cannot be empty")
  else
    match db.users caller with
    | none => (db, some "TypeError: cannot read displayName of null")
    | some prof =>
      let c : Comment :=
        { authorId := caller, authorName := prof.displayName, text := commentText.trim }
      let db1 : DB :=
        { db with comments := setFun db.comments postId (db.comments postId ++ [(db.nextId, c)]),
                  nextId := db.nextId + 1 }
      match db1.posts postId with
      | none => (db1, some "TypeError: cannot read commentsCount of null")
      | some post =>
        let db2 : DB :=
          { db1 with posts := setFun db1.posts postId (some { post with commentsCount := some (post.commentsCount.getD 0 + 1) }) }
        if post.authorId ≠ caller then
          (addNotification db2 post.authorId
            { ntype := "post_comment", nfrom := caller,
              message := prof.displayName ++ " commented on your post",
              timestamp := db2.now }, none)
        else
          (db2, none)

/-- deleteComment: only the comment's author may delete it; the comment key is
removed, then the post node is read back and `commentsCount` is written as the
previous value minus one clamped at zero (Math.max(count - 1, 0)). -/
def deleteComment (db : DB) (caller : UserId) (postId commentId : Nat) :
    DB × Option String :=
  match (db.comments postId).find? (fun kc => kc.1 = commentId) with
  | none => (db, some "Comment not found")
  | some kc =>
    if kc.2.authorId ≠ caller then
      (db, some "Can only delete your own comments")
    else
      let db1 : DB :=
        { db with comments := setFun db.comments postId ((db.comments postId).filter (fun e => e.1 ≠ commentId)) }
      match db1.posts postId with
      | none => (db1, some "TypeError: cannot read commentsCount of null")
      | some post =>
        ({ db1 with posts := setFun db1.posts postId (some { post with commentsCount := some (max (post.commentsCount.getD 0 - 1) 0) }) }, none)

/-- The counter invariant of one post: the like set has no duplicate keys, the
stored likesCount equals its cardinality, and the stored commentsCount equals
the length of the post's comment log. -/
def InvPost (db : DB) (postId : Nat) (p : Post) : Prop :=
  p.likes.Nodup ∧
  p.likesCount = some (p.likes.length : Int) ∧
  p.commentsCount = some ((db.comments postId).length : Int)

/-- The counter invariant over every existing post. -/
def InvDB (db : DB) : Prop :=
  ∀ postId p, db.posts postId = some p → InvPost db postId p

/-- One step of a like/comment workload; a failed call keeps the writes it
performed before throwing (none, for the failure paths of these two ops that
matter to existing posts). -/
inductive FeedOp where
  | toggleLike (caller : UserId) (postId : Nat)
  | comment (caller : UserId) (postId : Nat) (text : String)

def FeedOp.apply (db : DB) : FeedOp → DB
  | .toggleLike caller postId => (togglePostLike db caller postId).1
  | .comment caller postId text => (addComment db caller postId text).1

def applyOps (db : DB) (ops : List FeedOp) : DB :=
  ops.foldl FeedOp.apply db

end Feed

/-! ### Concrete stores used to evaluate the operations on explicit inputs -/

/-- A two-user store: no edges, no requests, no notifications. -/
def twoUserDB : Friends.DB :=
  { users := [("u1", { displayName := "Alice", username := some "alice" }),
              ("u2", { displayName := "Bob", username := some "bob" })],
    usernames := fun n => if n = "alice" then some "u1" else if n = "bob" then some "u2" else none,
    friends := fun _ => [],
    requests := fun _ => [],
    notifs := fun _ => [],
    now := 0 }

/-- The two-user store after u1 sent a friend request to u2
(a key at `friendRequests/u2/u1`). -/
def outgoingRequestDB : Friends.DB :=
  { twoUserDB with requests := fun u => if u = "u2" then ["u1"] else [] }

/-- A chat store where u1 and u2 are friends and no messages exist. -/
def chatBaseDB : Chat.DB :=
  { friends := fun u => if u = "u1" then ["u2"] else if u = "u2" then ["u1"] else [],
    users := fun u =>
      if u = "u1" then some { displayName := "Alice", username := some "alice" }
      else if u = "u2" then some { displayName := "Bob", username := some "bob" }
      else none,
    messages := fun _ => [],
    chats := fun _ => none,
    userChats := fun _ _ => none,
    notifs := fun _ => [],
    nextMsgId := 3,
    now := 9 }

/-- The chat store with a three-message log containing a timestamp tie. -/
def chatTieDB : Chat.DB :=
  { chatBaseDB with
    messages := fun c =>
      if c = Chat.generateChatId "u1" "u2" then
        [{ key := 0, senderId := "u1", recipientId := "u2", text := "a", ts := 5, read := false },
         { key := 1, senderId := "u2", recipientId := "u1", text := "b", ts := 5, read := false },
         { key := 2, senderId := "u1", recipientId := "u2", text := "c", ts := 7, read := false }]
      else [] }

/-- A feed store with one post by u1 and no likes or comments. -/
def feedBaseDB : Feed.DB :=
  { users := fun u =>
      if u = "u1" then some { displayName := "Alice", username := some "alice" }
      else if u = "u2" then some { displayName := "Bob", username := some "bob" }
      else none,
    posts := fun p =>
      if p = 0 then
        some { authorId := "u1", authorName := "Alice", content := "hello",
               likes := [], likesCount := some 0, commentsCount := some 0 }
      else none,
    comments := fun _ => [],
    notifs := fun _ => [],
    nextId := 1,
    now := 0 }

/-- A feed store where post 0 carries one comment by u1 while its stored
commentsCount is already zero (a transient mismatch a deletion must not push
below zero). -/
def feedZeroCountDB : Feed.DB :=
  { feedBaseDB with
    comments := fun p =>
      if p = 0 then [(5, { authorId := "u1", authorName := "Alice", text := "hi" })] else [] }

/-! ### Theorems -/

theorem mem_keyInsert {l : List UserId} {x z : UserId} :
    z ∈ keyInsert l x ↔ z = x ∨ z ∈ l := by
  unfold keyInsert
  split
  · constructor
    · exact fun h => Or.inr h
    · rintro (rfl | h) <;> assumption
  · simp [or_comm]

theorem mem_keyRemove {l : List UserId} {x z : UserId} :
    z ∈ keyRemove l x ↔ z ∈ l ∧ z ≠ x := by
  simp [keyRemove]

/-- The friends map produced by acceptFriendRequest, independent of whether the
notification step threw. -/
theorem accept_friends_eq (db : Friends.DB) (o f : UserId) :
    ((Friends.acceptFriendRequest db o f).1).friends =
      setFun (setFun db.friends o (keyInsert (db.friends o) f)) f
        (keyInsert (setFun db.friends o (keyInsert (db.friends o) f) f) o) := by
  unfold Friends.acceptFriendRequest
  dsimp only
  split <;> rfl

/-- Membership in the friends map after acceptFriendRequest. -/
theorem accept_mem_friends (db : Friends.DB) (o f x z : UserId) :
    z ∈ ((Friends.acceptFriendRequest db o f).1).friends x ↔
      z ∈ db.friends x ∨ (x = o ∧ z = f) ∨ (x = f ∧ z = o) := by
  rw [accept_friends_eq]
  simp only [setFun]
  split_ifs <;> simp_all [mem_keyInsert] <;> tauto

/-- Membership in the friends map after removeFriend. -/
theorem remove_mem_friends (db : Friends.DB) (a b x z : UserId) :
    z ∈ (Friends.removeFriend db a b).friends x ↔
      z ∈ db.friends x ∧ ¬(x = a ∧ z = b) ∧ ¬(x = b ∧ z = a) := by
  unfold Friends.removeFriend
  dsimp only
  simp only [setFun]
  split_ifs <;> simp_all [mem_keyRemove]

theorem contains_iff_mem {l : List UserId} {x : UserId} :
    l.contains x = true ↔ x ∈ l := by
  simp [List.contains_iff_exists_mem_beq, beq_iff_eq, eq_comm]

/-- C1: after any completed acceptFriendRequest the accepted pair is mutual —
areFriends holds in both directions — and both acceptFriendRequest and
removeFriend preserve the mirrored friend-edge invariant (an edge at
`friends/A/B` exists iff the edge at `friends/B/A` does). -/
theorem acceptFriendRequest_removeFriend_mirror (db : Friends.DB) (o f a b : UserId) :
    Friends.areFriends ((Friends.acceptFriendRequest db o f).1) o f = true ∧
    Friends.areFriends ((Friends.acceptFriendRequest db o f).1) f o = true ∧
    (Friends.Mirrored db → Friends.Mirrored ((Friends.acceptFriendRequest db o f).1)) ∧
    (Friends.Mirrored db → Friends.Mirrored (Friends.removeFriend db a b)) := by
  refine ⟨?_, ?_, ?_, ?_⟩
  · rw [Friends.areFriends, contains_iff_mem, accept_mem_friends]; tauto
  · rw [Friends.areFriends, contains_iff_mem, accept_mem_friends]; tauto
  · intro h x y
    rw [accept_mem_friends, accept_mem_friends]
    have := h x y
    tauto
  · intro h x y
    rw [remove_mem_friends, remove_mem_friends]
    have := h x y
    tauto

/-- Witness for C1 at the concrete two-user store. -/
theorem acceptFriendRequest_removeFriend_mirror_witness :
    Friends.areFriends ((Friends.acceptFriendRequest twoUserDB "u1" "u2").1) "u1" "u2" = true ∧
    Friends.Mirrored ((Friends.acceptFriendRequest twoUserDB "u1" "u2").1) := by
  have hm : Friends.Mirrored twoUserDB := by
    intro a b
    simp [twoUserDB]
  have h := acceptFriendRequest_removeFriend_mirror twoUserDB "u1" "u2" "u1" "u2"
  exact ⟨h.1, h.2.2.1 hm⟩

/-- The requests map produced by acceptFriendRequest, independent of whether
the notification step threw. -/
theorem accept_requests_eq (db : Friends.DB) (o f : UserId) :
    ((Friends.acceptFriendRequest db o f).1).requests =
      setFun db.requests o (keyRemove (db.requests o) f) := by
  unfold Friends.acceptFriendRequest
  dsimp only
  split <;> rfl

/-- C4 counterexample: in the two-user store no pending request from u2 to u1
exists, yet acceptFriendRequest u1 u2 completes without an error, writes the
friend edge and pushes a friend-accept notification. -/
theorem acceptFriendRequest_missing_request_counterexample :
    "u2" ∉ twoUserDB.requests "u1" ∧
    (Friends.acceptFriendRequest twoUserDB "u1" "u2").2 = none ∧
    Friends.areFriends ((Friends.acceptFriendRequest twoUserDB "u1" "u2").1) "u1" "u2" = true ∧
    ((Friends.acceptFriendRequest twoUserDB "u1" "u2").1).notifs "u2" =
      [{ ntype := "friend_request_accepted", nfrom := "u1",
         message := "Alice accepted your friend request", timestamp := 0 }] := by
  refine ⟨by simp [twoUserDB], rfl, rfl, rfl⟩

/-- C4 amended: acceptFriendRequest performs no existence check on the pending
request and never fails with NotFound; from any state in which the owner has a
profile it completes, deletes the request key if present, creates both mirrored
friend edges, and enqueues a friend-accept notification to the requester. -/
theorem acceptFriendRequest_unconditional (db : Friends.DB) (o f : UserId) (p : Profile)
    (hp : Friends.getUserProfile db o = some p) :
    (Friends.acceptFriendRequest db o f).2 = none ∧
    f ∉ ((Friends.acceptFriendRequest db o f).1).requests o ∧
    Friends.areFriends ((Friends.acceptFriendRequest db o f).1) o f = true ∧
    Friends.areFriends ((Friends.acceptFriendRequest db o f).1) f o = true ∧
    ((Friends.acceptFriendRequest db o f).1).notifs f =
      db.notifs f ++ [{ ntype := "friend_request_accepted", nfrom := o,
                        message := p.displayName ++ " accepted your friend request",
                        timestamp := db.now }] := by
  refine ⟨?_, ?_, ?_, ?_, ?_⟩
  · unfold Friends.acceptFriendRequest
    dsimp only
    simp only [Friends.getUserProfile] at hp ⊢
    rw [hp]
  · rw [accept_requests_eq]
    simp [setFun, mem_keyRemove]
  · rw [Friends.areFriends, contains_iff_mem, accept_mem_friends]; tauto
  · rw [Friends.areFriends, contains_iff_mem, accept_mem_friends]; tauto
  · unfold Friends.acceptFriendRequest Friends.addNotification
    dsimp only
    simp only [Friends.getUserProfile] at hp ⊢
    rw [hp]
    simp [setFun]

/-- Witness for C4 amended at the two-user store. -/
theorem acceptFriendRequest_unconditional_witness :
    (Friends.acceptFriendRequest twoUserDB "u1" "u2").2 = none ∧
    Friends.areFriends ((Friends.acceptFriendRequest twoUserDB "u1" "u2").1) "u2" "u1" = true := by
  have h := acceptFriendRequest_unconditional twoUserDB "u1" "u2"
    { displayName := "Alice", username := some "alice" } (by rfl)
  exact ⟨h.1, h.2.2.2.1⟩

theorem lookup_isSome_of_mem {l : List (UserId × Profile)} {a : UserId} {b : Profile}
    (h : (a, b) ∈ l) : (l.lookup a).isSome = true := by
  induction l with
  | nil => simp at h
  | cons x t ih =>
    cases x with
    | mk k v =>
      rcases List.mem_cons.mp h with heq | ht
      · cases heq
        simp [List.lookup]
      · by_cases hk : a = k
        · subst hk
          simp [List.lookup]
        · have hb : (a == k) = false := beq_eq_false_iff_ne.mpr hk
          simpa [List.lookup, hb] using ih ht

theorem contains_eq_false_iff {l : List UserId} {x : UserId} :
    l.contains x = false ↔ x ∉ l := by
  rw [← contains_iff_mem]
  cases l.contains x <;> simp

/-- Under a consistent username index, the linear scan of `users` in
sendFriendRequest resolves a username exactly as the index does. -/
theorem find_username_eq_index (db : Friends.DB) (hc : Friends.UsernameConsistent db)
    (name : String) :
    (db.users.find? (fun up => up.2.username = some name)).map Prod.fst =
      db.usernames name := by
  obtain ⟨hto, hfrom⟩ := hc
  cases hidx : db.usernames name with
  | none =>
    have hnone : db.users.find? (fun up => up.2.username = some name) = none := by
      rw [List.find?_eq_none]
      intro up hup
      simp only [decide_eq_true_eq]
      intro hname
      have := hto up.1 up.2 name (by simpa using hup) hname
      rw [hidx] at this
      cases this
    rw [hnone]
    rfl
  | some u =>
    obtain ⟨p, hmem, hname⟩ := hfrom name u hidx
    cases hfind : db.users.find? (fun up => up.2.username = some name) with
    | none =>
      rw [List.find?_eq_none] at hfind
      have := hfind (u, p) hmem
      simp [hname] at this
    | some e =>
      have hpred := List.find?_some hfind
      have hmem' := List.mem_of_find?_eq_some hfind
      simp only [decide_eq_true_eq] at hpred
      have := hto e.1 e.2 name (by simpa using hmem') hpred
      rw [hidx] at this
      cases this
      rfl

/-- C5: sendFriendRequest validates in order — unresolved username, self
reference, existing friend edge, duplicate pending request, reciprocal pending
request — and only when no check fires does it create the request key and push
a friend-request notification to the resolved target.  Stated over any store
whose username index is consistent with the profile data. -/
theorem sendFriendRequest_error_taxonomy (db : Friends.DB) (caller : UserId)
    (name : String) (hc : Friends.UsernameConsistent db) :
    (db.usernames name = none →
      Friends.sendFriendRequest db caller name = (db, some "User not found")) ∧
    (db.usernames name = some caller →
      Friends.sendFriendRequest db caller name =
        (db, some "Cannot send friend request to yourself")) ∧
    (∀ t, db.usernames name = some t → t ≠ caller →
      (db.friends caller).contains t = true →
      Friends.sendFriendRequest db caller name =
        (db, some "Already friends with this user")) ∧
    (∀ t, db.usernames name = some t → t ≠ caller →
      (db.friends caller).contains t = false →
      (db.requests t).contains caller = true →
      Friends.sendFriendRequest db caller name =
        (db, some "Friend request already sent")) ∧
    (∀ t, db.usernames name = some t → t ≠ caller →
      (db.friends caller).contains t = false →
      (db.requests t).contains caller = false →
      (db.requests caller).contains t = true →
      Friends.sendFriendRequest db caller name =
        (db, some "This user has already sent you a friend request")) ∧
    (∀ t p, db.usernames name = some t → t ≠ caller →
      (db.friends caller).contains t = false →
      (db.requests t).contains caller = false →
      (db.requests caller).contains t = false →
      Friends.getUserProfile db caller = some p →
      (Friends.sendFriendRequest db caller name).2 = none ∧
      caller ∈ ((Friends.sendFriendRequest db caller name).1).requests t ∧
      ((Friends.sendFriendRequest db caller name).1).notifs t =
        db.notifs t ++ [{ ntype := "friend_request", nfrom := caller,
                          message := p.displayName ++ " sent you a friend request",
                          timestamp := db.now }]) := by
  have hfind := find_username_eq_index db hc name
  refine ⟨?_, ?_, ?_, ?_, ?_, ?_⟩
  · intro h0
    unfold Friends.sendFriendRequest Friends.getUserByUsername
    rw [h0]
  · intro h0
    obtain ⟨p, hmem, _⟩ := hc.2 name caller h0
    obtain ⟨q, hl⟩ := Option.isSome_iff_exists.mp (lookup_isSome_of_mem hmem)
    unfold Friends.sendFriendRequest Friends.getUserByUsername Friends.getUserProfile
    simp [h0, hl, hfind]
  · intro t h0 hne hfr
    obtain ⟨p, hmem, _⟩ := hc.2 name t h0
    obtain ⟨q, hl⟩ := Option.isSome_iff_exists.mp (lookup_isSome_of_mem hmem)
    have hfr' := contains_iff_mem.mp hfr
    unfold Friends.sendFriendRequest Friends.getUserByUsername Friends.getUserProfile
    simp [h0, hl, hfind, hne, hfr']
  · intro t h0 hne hfr hdup
    obtain ⟨p, hmem, _⟩ := hc.2 name t h0
    obtain ⟨q, hl⟩ := Option.isSome_iff_exists.mp (lookup_isSome_of_mem hmem)
    have hfr' := contains_eq_false_iff.mp hfr
    have hdup' := contains_iff_mem.mp hdup
    unfold Friends.sendFriendRequest Friends.getUserByUsername Friends.getUserProfile
    simp [h0, hl, hfind, hne, hfr', hdup']
  · intro t h0 hne hfr hdup hrec
    obtain ⟨p, hmem, _⟩ := hc.2 name t h0
    obtain ⟨q, hl⟩ := Option.isSome_iff_exists.mp (lookup_isSome_of_mem hmem)
    have hfr' := contains_eq_false_iff.mp hfr
    have hdup' := contains_eq_false_iff.mp hdup
    have hrec' := contains_iff_mem.mp hrec
    unfold Friends.sendFriendRequest Friends.getUserByUsername Friends.getUserProfile
    simp [h0, hl, hfind, hne, hfr', hdup', hrec']
  · intro t p h0 hne hfr hdup hrec hp
    obtain ⟨q0, hmem, _⟩ := hc.2 name t h0
    obtain ⟨q, hl⟩ := Option.isSome_iff_exists.mp (lookup_isSome_of_mem hmem)
    have hfr' := contains_eq_false_iff.mp hfr
    have hdup' := contains_eq_false_iff.mp hdup
    have hrec' := contains_eq_false_iff.mp hrec
    have hp' : List.lookup caller db.users = some p := by
      simpa [Friends.getUserProfile] using hp
    unfold Friends.sendFriendRequest Friends.getUserByUsername Friends.getUserProfile
    simp only [h0, hl, hfind, Option.map_eq_map]
    rw [if_neg hne, if_neg (by simpa [contains_iff_mem] using hfr'),
      if_neg (by simpa [contains_iff_mem] using hdup'),
      if_neg (by simpa [contains_iff_mem] using hrec'), hp']
    refine ⟨rfl, ?_, ?_⟩
    · simp [Friends.addNotification, setFun, mem_keyInsert]
    · simp [Friends.addNotification, setFun]

theorem twoUserDB_consistent : Friends.UsernameConsistent twoUserDB := by
  constructor
  · intro u p n hmem hn
    simp only [twoUserDB, List.mem_cons, List.not_mem_nil, or_false, Prod.mk.injEq] at hmem
    rcases hmem with ⟨rfl, rfl⟩ | ⟨rfl, rfl⟩
    · have hn' : some "alice" = some n := hn
      cases Option.some.inj hn'
      simp [twoUserDB]
    · have hn' : some "bob" = some n := hn
      cases Option.some.inj hn'
      simp [twoUserDB]
  · intro n u h
    simp only [twoUserDB] at h
    split at h
    · rename_i hcond
      cases h
      exact ⟨{ displayName := "Alice", username := some "alice" },
        by simp [twoUserDB], by simp [hcond]⟩
    · split at h
      · rename_i hcond
        cases h
        exact ⟨{ displayName := "Bob", username := some "bob" },
          by simp [twoUserDB], by simp [hcond]⟩
      · cases h

/-- Witness for C5: u1 sends a request to username bob in the two-user store;
the request is created and no error is raised. -/
theorem sendFriendRequest_error_taxonomy_witness :
    (Friends.sendFriendRequest twoUserDB "u1" "bob").2 = none ∧
    "u1" ∈ ((Friends.sendFriendRequest twoUserDB "u1" "bob").1).requests "u2" := by
  have h := (sendFriendRequest_error_taxonomy twoUserDB "u1" "bob" twoUserDB_consistent).2.2.2.2.2
    "u2" { displayName := "Alice", username := some "alice" } (by rfl) (by decide) rfl rfl rfl rfl
  exact ⟨h.1, h.2.1⟩

/-- C9 counterexample: after u1 sends a friend request to u2 (a pending
outgoing request for u1), u2 — the counterpart of that pending request —
still appears in u1's friend suggestions. -/
theorem getFriendSuggestions_outgoing_counterexample :
    "u1" ∈ outgoingRequestDB.requests "u2" ∧
    "u2" ∈ Friends.getFriendSuggestions outgoingRequestDB "u1" 10 := by
  constructor
  · simp [outgoingRequestDB]
  · rw [show Friends.getFriendSuggestions outgoingRequestDB "u1" 10 = ["u2"] from rfl]
    simp

/-- C9 amended: getFriendSuggestions returns at most `limit` users, and never
the owner, an existing friend of the owner, or the sender of a pending
incoming request; counterparts of the owner's outgoing pending requests are
not excluded. -/
theorem getFriendSuggestions_filters (db : Friends.DB) (owner : UserId) (limit : Nat) :
    (Friends.getFriendSuggestions db owner limit).length ≤ limit ∧
    ∀ u ∈ Friends.getFriendSuggestions db owner limit,
      u ≠ owner ∧ u ∉ db.friends owner ∧ u ∉ db.requests owner := by
  constructor
  · exact List.length_take_le _ _
  · intro u hu
    unfold Friends.getFriendSuggestions at hu
    have hu' := List.mem_of_mem_take hu
    rw [List.mem_filter] at hu'
    obtain ⟨hall, hpred⟩ := hu'
    have hsome : (Friends.getUserProfile db u).isSome = true := by
      unfold Friends.getAllUsers at hall
      obtain ⟨e, he, rfl⟩ := List.mem_map.mp hall
      exact lookup_isSome_of_mem (by simpa using he)
    simp only [Bool.and_eq_true, Bool.not_eq_true', decide_eq_true_eq] at hpred
    obtain ⟨⟨hne, hfr⟩, hreq⟩ := hpred
    refine ⟨hne, ?_, ?_⟩
    · intro hmem
      have hin : u ∈ Friends.getFriendsList db owner :=
        List.mem_filter.mpr ⟨hmem, hsome⟩
      rw [← contains_iff_mem] at hin
      rw [hin] at hfr
      cases hfr
    · intro hmem
      have hin : u ∈ Friends.getFriendRequests db owner :=
        List.mem_filter.mpr ⟨hmem, hsome⟩
      rw [← contains_iff_mem] at hin
      rw [hin] at hreq
      cases hreq

/-- Witness for C9 amended at the store with a pending outgoing request. -/
theorem getFriendSuggestions_filters_witness :
    "u2" ≠ "u1" ∧ "u2" ∉ outgoingRequestDB.friends "u1" ∧
    "u2" ∉ outgoingRequestDB.requests "u1" :=
  (getFriendSuggestions_filters outgoingRequestDB "u1" 10).2 "u2" (by decide)

/-- C3 counterexample: u1 and u2 are friends and the message text is blank,
yet sendMessage completes with no error and appends the blank message —
the chat module contains no EmptyMessage validation. -/
theorem sendMessage_blank_text_counterexample :
    (Chat.sendMessage chatBaseDB "u1" "u2" "").2 = none ∧
    ((Chat.sendMessage chatBaseDB "u1" "u2" "").1).messages (Chat.generateChatId "u1" "u2") =
      [{ key := 3, senderId := "u1", recipientId := "u2", text := "", ts := 9, read := false }] := by
  constructor <;> rfl

/-- C3 amended: sendMessage fails with the not-friends error exactly when no
friend edge `friends/{sender}/{recipient}` exists; there is no blank-text
check, so whenever the edge exists the message is appended with the given
text, blank or not. -/
theorem sendMessage_notFriends_no_blank_check (db : Chat.DB) (s r : UserId) (t : String) :
    (Chat.areFriends db s r = false →
      Chat.sendMessage db s r t = (db, some "Can only send messages to friends")) ∧
    (Chat.areFriends db s r = true →
      ((Chat.sendMessage db s r t).1).messages (Chat.generateChatId s r) =
        db.messages (Chat.generateChatId s r) ++
          [{ key := db.nextMsgId, senderId := s, recipientId := r, text := t,
             ts := db.now, read := false }]) := by
  constructor
  · intro h
    unfold Chat.sendMessage
    rw [if_neg]
    rw [h]
    simp
  · intro h
    unfold Chat.sendMessage
    rw [if_pos h]
    dsimp only
    split <;> simp [Chat.addNotification, setFun]

/-- Witness for C3 amended: the blank message really lands in the log. -/
theorem sendMessage_notFriends_no_blank_check_witness :
    ((Chat.sendMessage chatBaseDB "u1" "u2" "").1).messages (Chat.generateChatId "u1" "u2") =
      chatBaseDB.messages (Chat.generateChatId "u1" "u2") ++
        [{ key := 3, senderId := "u1", recipientId := "u2", text := "", ts := 9, read := false }] :=
  (sendMessage_notFriends_no_blank_check chatBaseDB "u1" "u2" "").2 rfl

/-- C6: a successful sendMessage between two distinct users leaves the
recipient's mirror unread count exactly one above its previous value and the
sender's mirror unread count unchanged. -/
theorem sendMessage_unread_counts (db : Chat.DB) (s r : UserId) (t : String)
    (hne : s ≠ r) (hok : (Chat.sendMessage db s r t).2 = none) :
    Chat.getUnreadCount ((Chat.sendMessage db s r t).1) r (Chat.generateChatId s r) =
      Chat.getUnreadCount db r (Chat.generateChatId s r) + 1 ∧
    Chat.getUnreadCount ((Chat.sendMessage db s r t).1) s (Chat.generateChatId s r) =
      Chat.getUnreadCount db s (Chat.generateChatId s r) := by
  by_cases hf : Chat.areFriends db s r = true
  · unfold Chat.sendMessage at hok ⊢
    rw [if_pos hf] at hok ⊢
    dsimp only at hok ⊢
    constructor
    · split <;>
        simp [Chat.getUnreadCount, Chat.setUC, Chat.mergeRecipientUC, Chat.mergeSenderUC,
          Chat.addNotification, hne, Ne.symm hne]
    · split <;>
      · simp only [Chat.addNotification, Chat.getUnreadCount, Chat.setUC, Chat.mergeSenderUC]
        rw [if_neg (by simp [hne]), if_pos (by simp)]
        cases db.userChats s (Chat.generateChatId s r) <;> simp
  · exfalso
    unfold Chat.sendMessage at hok
    rw [if_neg hf] at hok
    simp at hok

/-- Witness for C6 in the friendly two-user chat store. -/
theorem sendMessage_unread_counts_witness :
    Chat.getUnreadCount ((Chat.sendMessage chatBaseDB "u1" "u2" "hi").1) "u2"
        (Chat.generateChatId "u1" "u2") =
      Chat.getUnreadCount chatBaseDB "u2" (Chat.generateChatId "u1" "u2") + 1 :=
  (sendMessage_unread_counts chatBaseDB "u1" "u2" "hi" (by decide) rfl).1

theorem setFun_self {α β : Type} [DecidableEq α] (f : α → β) (a : α) (b : β) :
    setFun f a b a = b := by
  simp [setFun]

theorem setUC_self (f : UserId → Chat.ChatId → Option Chat.UCSummary) (u : UserId)
    (c : Chat.ChatId) (v : Option Chat.UCSummary) : Chat.setUC f u c v u c = v := by
  simp [Chat.setUC]

theorem mergeReadUC_idem (old : Option Chat.UCSummary) :
    Chat.mergeReadUC (Chat.mergeReadUC old) = Chat.mergeReadUC old := by
  cases old <;> rfl

/-- C7: markMessagesAsRead zeroes the reader's mirror unread count for the
thread, marks every message in that thread addressed to the reader as read,
and is idempotent: running it again returns the identical store state (so the
count is 0 after the first and after the second call). -/
theorem markMessagesAsRead_idempotent (db : Chat.DB) (reader other : UserId) :
    Chat.getUnreadCount (Chat.markMessagesAsRead db reader other) reader
      (Chat.generateChatId reader other) = 0 ∧
    (∀ m ∈ (Chat.markMessagesAsRead db reader other).messages
        (Chat.generateChatId reader other),
      m.recipientId = reader → m.read = true) ∧
    Chat.markMessagesAsRead (Chat.markMessagesAsRead db reader other) reader other =
      Chat.markMessagesAsRead db reader other := by
  refine ⟨?_, ?_, ?_⟩
  · unfold Chat.markMessagesAsRead Chat.getUnreadCount
    dsimp only
    rw [setUC_self]
    cases db.userChats reader (Chat.generateChatId reader other) <;>
      simp [Chat.mergeReadUC]
  · intro m hm hrec
    unfold Chat.markMessagesAsRead at hm
    dsimp only at hm
    rw [setFun_self] at hm
    obtain ⟨m0, hm0, rfl⟩ := List.mem_map.mp hm
    by_cases hc : m0.recipientId = reader ∧ m0.read = false
    · rw [if_pos hc]
    · rw [if_neg hc] at hrec ⊢
      rcases Bool.eq_false_or_eq_true m0.read with hv | hv
      · exact hv
      · exact absurd ⟨hrec, hv⟩ hc
  · unfold Chat.markMessagesAsRead
    dsimp only
    congr 1
    · funext c
      by_cases hcid : c = Chat.generateChatId reader other
      · subst hcid
        rw [setFun_self]
        conv_rhs => rw [setFun_self]
        rw [setFun_self, List.map_map]
        apply List.map_congr_left
        intro m _
        simp only [Function.comp_apply]
        by_cases hc : m.recipientId = reader ∧ m.read = false
        · rw [if_pos hc, if_neg (by simp)]
        · rw [if_neg hc, if_neg hc]
      · simp [setFun, hcid]
    · funext x y
      by_cases hxy : x = reader ∧ y = Chat.generateChatId reader other
      · obtain ⟨rfl, rfl⟩ := hxy
        simp only [setUC_self]
        exact mergeReadUC_idem _
      · simp [Chat.setUC, hxy]

/-- Witness for C7: the unread count in the concrete chat store is 0 after one
call and the second call does not change the state. -/
theorem markMessagesAsRead_idempotent_witness :
    Chat.getUnreadCount (Chat.markMessagesAsRead chatTieDB "u2" "u1") "u2"
      (Chat.generateChatId "u2" "u1") = 0 ∧
    Chat.markMessagesAsRead (Chat.markMessagesAsRead chatTieDB "u2" "u1") "u2" "u1" =
      Chat.markMessagesAsRead chatTieDB "u2" "u1" := by
  have h := markMessagesAsRead_idempotent chatTieDB "u2" "u1"
  exact ⟨h.1, h.2.2⟩

theorem lexLT_ts_le {a b : Chat.Msg} (h : Chat.lexLT a b) : a.ts ≤ b.ts := by
  rcases h with h | ⟨h, _⟩
  · exact le_of_lt h
  · exact le_of_eq h

theorem mem_insTs {x z : Chat.Msg} {l : List Chat.Msg} :
    z ∈ Chat.insTs x l ↔ z = x ∨ z ∈ l := by
  induction l with
  | nil => simp [Chat.insTs]
  | cons y ys ih =>
    rw [Chat.insTs]
    split
    · simp [or_comm, or_left_comm]
    · simp [ih, or_left_comm]

theorem mem_sortByTs {z : Chat.Msg} {l : List Chat.Msg} :
    z ∈ Chat.sortByTs l ↔ z ∈ l := by
  induction l with
  | nil => simp [Chat.sortByTs]
  | cons x xs ih =>
    rw [Chat.sortByTs]
    simp [mem_insTs, ih]

/-- Stable insertion preserves the lexicographic order when the inserted
element's key beats every equal-timestamp element already present. -/
theorem insTs_pairwise {x : Chat.Msg} {l : List Chat.Msg}
    (hl : l.Pairwise Chat.lexLT)
    (hx : ∀ y ∈ l, x.ts = y.ts → x.key < y.key) :
    (Chat.insTs x l).Pairwise Chat.lexLT := by
  induction l with
  | nil => simp [Chat.insTs]
  | cons y ys ih =>
    rw [List.pairwise_cons] at hl
    obtain ⟨hy, hys⟩ := hl
    rw [Chat.insTs]
    split
    · rename_i hle
      rw [List.pairwise_cons]
      constructor
      · intro z hz
        rcases List.mem_cons.mp hz with rfl | hz'
        · rcases lt_or_eq_of_le hle with h | h
          · exact Or.inl h
          · exact Or.inr ⟨h, hx z (by simp) h⟩
        · have hyz := hy z hz'
          rcases lt_or_eq_of_le (le_trans hle (lexLT_ts_le hyz)) with h | h
          · exact Or.inl h
          · exact Or.inr ⟨h, hx z (by simp [hz']) h⟩
      · exact List.pairwise_cons.mpr ⟨hy, hys⟩
    · rename_i hgt
      push_neg at hgt
      rw [List.pairwise_cons]
      constructor
      · intro z hz
        rcases mem_insTs.mp hz with rfl | hz'
        · exact Or.inl hgt
        · exact hy z hz'
      · exact ih hys (fun y' hy' => hx y' (by simp [hy']))

/-- The stable sort of a log whose keys strictly increase is sorted by
timestamp with key order breaking ties. -/
theorem sortByTs_pairwise {l : List Chat.Msg}
    (h : l.Pairwise (fun a b => a.key < b.key)) :
    (Chat.sortByTs l).Pairwise Chat.lexLT := by
  induction l with
  | nil => simp [Chat.sortByTs]
  | cons x xs ih =>
    rw [List.pairwise_cons] at h
    obtain ⟨hx, hxs⟩ := h
    rw [Chat.sortByTs]
    exact insTs_pairwise (ih hxs) (fun y hy _ => hx y (mem_sortByTs.mp hy))

/-- C8: over any log whose push keys strictly increase, the lists returned by
getChatMessages and delivered by listenToChatMessages are sorted by creation
time ascending with equal timestamps kept in key (insertion) order; and the
write path assigns each appended message the current counter value and bumps
the counter, so keys form a monotonically increasing sequence assigned at
write time. -/
theorem chatMessages_sorted (db : Chat.DB) (me other : UserId) (lim : Nat)
    (h : (db.messages (Chat.generateChatId me other)).Pairwise
      (fun a b => a.key < b.key)) :
    (Chat.getChatMessages db me other lim).Pairwise Chat.lexLT ∧
    (Chat.getChatMessages db me other lim).Pairwise (fun a b => a.ts ≤ b.ts) ∧
    Chat.listenToChatMessagesSnapshot db me other lim =
      Chat.getChatMessages db me other lim ∧
    (∀ s r t, Chat.areFriends db s r = true →
      ((Chat.sendMessage db s r t).1).messages (Chat.generateChatId s r) =
        db.messages (Chat.generateChatId s r) ++
          [{ key := db.nextMsgId, senderId := s, recipientId := r, text := t,
             ts := db.now, read := false }] ∧
      ((Chat.sendMessage db s r t).1).nextMsgId = db.nextMsgId + 1 ∧
      ((∀ m ∈ db.messages (Chat.generateChatId s r), m.key < db.nextMsgId) →
        (db.messages (Chat.generateChatId s r)).Pairwise (fun a b => a.key < b.key) →
        (((Chat.sendMessage db s r t).1).messages (Chat.generateChatId s r)).Pairwise
          (fun a b => a.key < b.key) ∧
        ∀ m ∈ ((Chat.sendMessage db s r t).1).messages (Chat.generateChatId s r),
          m.key < ((Chat.sendMessage db s r t).1).nextMsgId)) := by
  have hsort : (Chat.getChatMessages db me other lim).Pairwise Chat.lexLT := by
    apply sortByTs_pairwise
    exact h.drop
  refine ⟨hsort, hsort.imp lexLT_ts_le, rfl, ?_⟩
  intro s r t hf
  have happ : ((Chat.sendMessage db s r t).1).messages (Chat.generateChatId s r) =
      db.messages (Chat.generateChatId s r) ++
        [{ key := db.nextMsgId, senderId := s, recipientId := r, text := t,
           ts := db.now, read := false }] := by
    unfold Chat.sendMessage
    rw [if_pos hf]
    dsimp only
    split <;> simp [Chat.addNotification, setFun]
  have hnext : ((Chat.sendMessage db s r t).1).nextMsgId = db.nextMsgId + 1 := by
    unfold Chat.sendMessage
    rw [if_pos hf]
    dsimp only
    split <;> rfl
  refine ⟨happ, hnext, ?_⟩
  intro hb hp
  constructor
  · rw [happ, List.pairwise_append]
    refine ⟨hp, by simp, ?_⟩
    intro a ha b hbmem
    rw [List.mem_singleton] at hbmem
    subst hbmem
    exact hb a ha
  · intro m hm
    rw [happ] at hm
    rw [hnext]
    rcases List.mem_append.mp hm with hold | hnew
    · exact lt_trans (hb m hold) (Nat.lt_succ_self _)
    · rw [List.mem_singleton] at hnew
      subst hnew
      exact Nat.lt_succ_self _

/-- Witness for C8 on the concrete log with a timestamp tie. -/
theorem chatMessages_sorted_witness :
    (Chat.getChatMessages chatTieDB "u1" "u2" 50).Pairwise Chat.lexLT :=
  (chatMessages_sorted chatTieDB "u1" "u2" 50 (by decide)).1

/-- The counter invariant only looks at the posts and comments maps. -/
theorem invDB_ext {d1 d2 : Feed.DB} (hposts : d1.posts = d2.posts)
    (hcomments : d1.comments = d2.comments) (h : Feed.InvDB d1) : Feed.InvDB d2 := by
  intro pid p hp
  rw [← hposts] at hp
  obtain ⟨hnd, hlc, hcc⟩ := h pid p hp
  exact ⟨hnd, hlc, by rw [← hcomments]; exact hcc⟩

/-- One like/comment step keeps every post's counters equal to the cardinality
of its like set and the length of its comment log. -/
theorem feedOp_preserves_inv (db : Feed.DB) (op : Feed.FeedOp) (h : Feed.InvDB db) :
    Feed.InvDB (Feed.FeedOp.apply db op) := by
  cases op with
  | toggleLike caller pid =>
    dsimp only [Feed.FeedOp.apply]
    unfold Feed.togglePostLike
    cases hpost : db.posts pid with
    | none => exact h
    | some post =>
      obtain ⟨hnd, hlc, hcc⟩ := h pid post hpost
      dsimp only
      by_cases hliked : post.likes.contains caller = true
      · rw [if_pos hliked]
        have hmem := contains_iff_mem.mp hliked
        have hfilter : post.likes.filter (fun u => u ≠ caller) = post.likes.erase caller := by
          rw [List.Nodup.erase_eq_filter hnd]
          apply List.filter_congr
          intro u _
          by_cases hu : u = caller <;> simp [hu]
        have hlen : (post.likes.erase caller).length = post.likes.length - 1 :=
          List.length_erase_of_mem hmem
        have hpos : 1 ≤ post.likes.length := List.length_pos_of_mem hmem
        intro pid' q hq
        have hq' : setFun db.posts pid (some { post with
            likes := post.likes.filter (fun u => u ≠ caller),
            likesCount := some (post.likesCount.getD 0 - 1) }) pid' = some q := hq
        by_cases hpid : pid' = pid
        · subst hpid
          rw [setFun_self] at hq'
          cases hq'
          refine ⟨hnd.filter _, ?_, hcc⟩
          rw [hfilter, hlen, hlc]
          simp only [Option.getD_some]
          congr 1
          omega
        · rw [setFun, if_neg hpid] at hq'
          exact h pid' q hq'
      · rw [if_neg hliked]
        have hnotmem := contains_eq_false_iff.mp (Bool.not_eq_true _ ▸ hliked :
          post.likes.contains caller = false)
        have hinv1 : Feed.InvDB { db with posts := setFun db.posts pid (some { post with likes := post.likes ++ [caller], likesCount := some (post.likesCount.getD 0 + 1) }) } := by
          intro pid' q hq
          have hq' : setFun db.posts pid (some { post with
              likes := post.likes ++ [caller],
              likesCount := some (post.likesCount.getD 0 + 1) }) pid' = some q := hq
          by_cases hpid : pid' = pid
          · subst hpid
            rw [setFun_self] at hq'
            cases hq'
            refine ⟨?_, ?_, hcc⟩
            · simp [List.nodup_append, hnd, hnotmem]
            · rw [hlc]
              simp only [Option.getD_some, List.length_append, List.length_singleton]
              exact congrArg some (by omega)
          · rw [setFun, if_neg hpid] at hq'
            exact h pid' q hq'
        repeat' split
        all_goals exact invDB_ext rfl rfl hinv1
  | comment caller pid text =>
    dsimp only [Feed.FeedOp.apply]
    unfold Feed.addComment
    by_cases hempty : text.trim.isEmpty = true
    · rw [if_pos hempty]
      exact h
    · rw [if_neg hempty]
      cases hprof : db.users caller with
      | none => exact h
      | some prof =>
        dsimp only
        split
        · rename_i hpostnone
          have hpost : db.posts pid = none := hpostnone
          intro pid' q hq
          have hq' : db.posts pid' = some q := hq
          by_cases hpid : pid' = pid
          · subst hpid
            rw [hpost] at hq'
            cases hq'
          · obtain ⟨hnd', hlc', hcc'⟩ := h pid' q hq'
            refine ⟨hnd', hlc', ?_⟩
            show q.commentsCount = some (((setFun db.comments pid _) pid').length : Int)
            rw [setFun, if_neg hpid]
            exact hcc'
        · rename_i post hpostsome
          have hpost : db.posts pid = some post := hpostsome
          obtain ⟨hnd, hlc, hcc⟩ := h pid post hpost
          have hinv2 : Feed.InvDB { db with
              posts := setFun db.posts pid (some { post with commentsCount := some (post.commentsCount.getD 0 + 1) }),
              comments := setFun db.comments pid (db.comments pid ++ [(db.nextId, { authorId := caller, authorName := prof.displayName, text := text.trim })]),
              nextId := db.nextId + 1 } := by
            intro pid' q hq
            have hq' : setFun db.posts pid (some { post with
                commentsCount := some (post.commentsCount.getD 0 + 1) }) pid' = some q := hq
            by_cases hpid : pid' = pid
            · subst hpid
              rw [setFun_self] at hq'
              cases hq'
              refine ⟨hnd, hlc, ?_⟩
              show _ = some (((setFun db.comments pid' _) pid').length : Int)
              rw [setFun_self, hcc]
              simp only [Option.getD_some, List.length_append, List.length_singleton]
              exact congrArg some (by omega)
            · rw [setFun, if_neg hpid] at hq'
              obtain ⟨hnd', hlc', hcc'⟩ := h pid' q hq'
              refine ⟨hnd', hlc', ?_⟩
              show q.commentsCount = some (((setFun db.comments pid _) pid').length : Int)
              rw [setFun, if_neg hpid]
              exact hcc'
          repeat' split
          all_goals exact invDB_ext rfl rfl hinv2

/-- C2: starting from any store satisfying the counter invariant, every
sequence of togglePostLike and addComment steps — hence the state after each
single completed mutation — keeps likesCount equal to the cardinality of the
like set and commentsCount equal to the length of the comment log, for every
post. -/
theorem post_counters_invariant (db : Feed.DB) (h : Feed.InvDB db)
    (ops : List Feed.FeedOp) : Feed.InvDB (Feed.applyOps db ops) := by
  induction ops generalizing db with
  | nil => exact h
  | cons op ops ih => exact ih _ (feedOp_preserves_inv db op h)

theorem feedBaseDB_inv : Feed.InvDB feedBaseDB := by
  intro pid p hp
  simp only [feedBaseDB] at hp
  split at hp
  · rename_i h0
    cases hp
    exact ⟨by simp, rfl, by simp [feedBaseDB, h0]⟩
  · cases hp

/-- Witness for C2: a like by u2 followed by a comment by u2 on the concrete
one-post store keeps the invariant. -/
theorem post_counters_invariant_witness :
    Feed.InvDB (Feed.applyOps feedBaseDB
      [Feed.FeedOp.toggleLike "u2" 0, Feed.FeedOp.comment "u2" 0 "hi"]) :=
  post_counters_invariant feedBaseDB feedBaseDB_inv
    [Feed.FeedOp.toggleLike "u2" 0, Feed.FeedOp.comment "u2" 0 "hi"]

/-- C10: a deleteComment that reaches the counter write stores
max(previous - 1, 0) as the new commentsCount: the stored value is never
negative, and when the previous stored value was zero (or nonpositive or
absent, both read back as at most zero) the value written back is zero. -/
theorem deleteComment_count_clamped (db : Feed.DB) (caller : UserId) (pid cid : Nat)
    (k : Nat) (c : Feed.Comment) (post : Feed.Post)
    (hfind : (db.comments pid).find? (fun kc => kc.1 = cid) = some (k, c))
    (hauth : c.authorId = caller)
    (hpost : db.posts pid = some post) :
    ((Feed.deleteComment db caller pid cid).1).posts pid =
      some { post with commentsCount := some (max (post.commentsCount.getD 0 - 1) 0) } ∧
    (0 : Int) ≤ max (post.commentsCount.getD 0 - 1) 0 ∧
    (post.commentsCount.getD 0 ≤ 0 → max (post.commentsCount.getD 0 - 1) 0 = 0) ∧
    (Feed.deleteComment db caller pid cid).2 = none := by
  unfold Feed.deleteComment
  rw [hfind]
  dsimp only
  rw [if_neg (by simp [hauth])]
  rw [show ({ db with comments := setFun db.comments pid ((db.comments pid).filter (fun e => e.1 ≠ cid)) } : Feed.DB).posts pid = db.posts pid from rfl, hpost]
  dsimp only
  refine ⟨setFun_self _ _ _, le_max_right _ _, ?_, rfl⟩
  intro hle
  omega

/-- Witness for C10 on the store whose stored count is already zero: the value
written back is zero, not minus one. -/
theorem deleteComment_count_clamped_witness :
    ((Feed.deleteComment feedZeroCountDB "u1" 0 5).1).posts 0 =
      some { authorId := "u1", authorName := "Alice", content := "hello", likes := [],
             likesCount := some 0, commentsCount := some 0 } ∧
    (Feed.deleteComment feedZeroCountDB "u1" 0 5).2 = none := by
  have h := deleteComment_count_clamped feedZeroCountDB "u1" 0 5 5
    { authorId := "u1", authorName := "Alice", text := "hi" }
    { authorId := "u1", authorName := "Alice", content := "hello", likes := [],
      likesCount := some 0, commentsCount := some 0 } rfl rfl rfl
  refine ⟨?_, h.2.2.2⟩
  rw [h.1]
  rfl

end WeFriend
